import Mathlib

/-!
Shallow embedding of the Callora Vault Soroban contract
(`src/contracts/vault/src/lib.rs`) and proofs about it.

Modelling conventions:
* Addresses and symbols are `Nat`; `i128` amounts are unbounded `Int`
  (no settled claim depends on 128-bit wrap behaviour, and the Soroban
  build traps rather than wraps on overflow).
* Contract storage is an explicit `VaultState` record with one optional
  slot per storage key used by the contract.  The source stores the
  `VaultMeta` record under two keys (`StorageKey::Meta` and the symbol
  `"meta"`): `init` and `withdraw_to` write both with the same value,
  the remaining operations write one of them, and the repository's own
  tests read a balance that reflects the latest write.  The embedding
  therefore models a single logical meta slot; the two `set` calls of
  `withdraw_to` are still visible as two `storeMeta` entries in its
  effect trace.
* `require_auth` is modelled by an environment predicate
  `auth : Nat → Bool` giving the set of addresses that have authorized
  the invocation; `addr.require_auth()` fails unless `auth addr`.
* A Soroban panic aborts the transaction and reverts all writes, so a
  failing operation is an `Except.error` carrying the panic reason and
  the caller keeps the pre-state (`finalState`).
* External token calls and event publications are recorded, in source
  order, in an effect trace (`Effect`), so the ordering between ledger
  writes and outbound transfers is observable.
* Lines 123-133 of the source (`is_authorized_depositor`) and 168-184
  (`distribute`) are two halves of a broken merge: the depositor check
  that belongs to `is_authorized_depositor` sits textually inside
  `distribute`, and a fragment of an admin-transfer function
  (referencing the undefined variable `new_admin`) sits inside
  `is_authorized_depositor`.  The embedding reassembles
  `is_authorized_depositor` from its two halves (owner check at lines
  126-129, allowed-depositor check at lines 172-183); the inert
  `new_admin` fragment cannot execute (it does not compile) and is not
  modelled.  `distribute` itself has no coherent body in the source and
  is not modelled.
-/

namespace Callora

/-- The `VaultMeta` record persisted by the contract (owner and balance). -/
structure VaultMeta where
  owner : Nat
  balance : Int
deriving DecidableEq

/-- One item of a `batch_deduct` call: an amount and an optional request id. -/
structure DeductItem where
  amount : Int
  request_id : Option Nat
deriving DecidableEq

/-- `DEFAULT_MAX_DEDUCT = i128::MAX`: the cap used when `init` gets no
`max_deduct` argument. -/
def DEFAULT_MAX_DEDUCT : Int := 170141183460469231731687303715884105727

/-- The contract's instance storage, one field per storage key:
the meta record (see the module comment for the two physical meta keys),
the USDC token address (`"usdc"`), the admin (`"admin"`), the revenue
pool (`"revenue_pool"`, which itself stores an `Option` address), the
deduct cap (`"max_deduct"`), and the allowed depositor
(`StorageKey::AllowedDepositor`).  `none` means the key is absent. -/
structure VaultState where
  meta : Option VaultMeta
  usdc : Option Nat
  admin : Option Nat
  revenuePool : Option (Option Nat)
  maxDeduct : Option Int
  allowedDepositor : Option Nat
deriving DecidableEq

/-- Panic reasons of the contract, one constructor per distinct panic or
failed `require_auth`. -/
inductive VErr where
  /-- `require_auth` failed for this address. -/
  | notAuth (a : Nat)
  /-- "vault already initialized" -/
  | alreadyInit
  /-- "vault not initialized" -/
  | notInit
  /-- "insufficient USDC in contract for initial_balance" -/
  | insufficientContractUsdc
  /-- "max_deduct must be positive" -/
  | maxDeductNotPositive
  /-- "unauthorized: only owner or allowed depositor can deposit" -/
  | unauthorizedDeposit
  /-- "unauthorized: owner only" -/
  | ownerOnly
  /-- "amount must be positive" -/
  | amountNotPositive
  /-- "deduct amount exceeds max_deduct" -/
  | exceedsMaxDeduct
  /-- "insufficient balance" -/
  | insufficientBalance
  /-- "batch_deduct requires at least one item" -/
  | emptyBatch
deriving DecidableEq

/-- Observable effects of an operation, recorded in source order:
stores of the meta record, outbound token-client calls, and events. -/
inductive Effect where
  | storeMeta (m : VaultMeta)
  | transfer (dst : Nat) (amount : Int)
  | eventInit (owner : Nat) (balance : Int)
  | eventDeduct (rid : Option Nat) (amount : Int) (newBalance : Int)
  | eventWithdraw (owner : Nat) (amount : Int) (newBalance : Int)
  | eventWithdrawTo (owner dst : Nat) (amount : Int) (newBalance : Int)
deriving DecidableEq

instance {ε α : Type} [DecidableEq ε] [DecidableEq α] :
    DecidableEq (Except ε α) := fun
  | .error e, .error f =>
    if h : e = f then .isTrue (by rw [h]) else .isFalse (by simp [h])
  | .error _, .ok _ => .isFalse (by simp)
  | .ok _, .error _ => .isFalse (by simp)
  | .ok x, .ok y =>
    if h : x = y then .isTrue (by rw [h]) else .isFalse (by simp [h])

/-- `addr.require_auth()`: succeeds exactly when the environment carries an
authorization for `addr`. -/
def requireAuth (auth : Nat → Bool) (a : Nat) : Except VErr Unit :=
  if auth a then .ok () else .error (.notAuth a)

/-- `get_meta` (lines 193-198): read the meta record, panic
"vault not initialized" when absent. -/
def get_meta (s : VaultState) : Except VErr VaultMeta :=
  match s.meta with
  | some m => .ok m
  | none => .error .notInit

/-- `get_max_deduct` (lines 136-141): read the deduct cap, panic
"vault not initialized" when absent. -/
def get_max_deduct (s : VaultState) : Except VErr Int :=
  match s.maxDeduct with
  | some v => .ok v
  | none => .error .notInit

/-- `get_revenue_pool` (lines 144-149): read the revenue pool with
`.unwrap_or(None)`, so an absent key yields `None` rather than a panic. -/
def get_revenue_pool (s : VaultState) : Option Nat :=
  match s.revenuePool with
  | some v => v
  | none => none

/-- Read of the `"usdc"` key with `unwrap_or_else(|| panic!("vault not
initialized"))`, as done inside deposit/deduct/withdraw paths. -/
def get_usdc (s : VaultState) : Except VErr Nat :=
  match s.usdc with
  | some u => .ok u
  | none => .error .notInit

/-- `balance` (lines 447-449): `get_meta(env).balance`. -/
def balance (s : VaultState) : Except VErr Int :=
  (get_meta s).map VaultMeta.balance

/-- `is_authorized_depositor`, reassembled from its two merge halves
(lines 123-129 and 172-183): the owner is always authorized; otherwise
the caller is authorized exactly when it equals the stored allowed
depositor. -/
def is_authorized_depositor (s : VaultState) (caller : Nat) :
    Except VErr Bool := do
  let meta ← get_meta s
  if caller = meta.owner then
    pure true
  else
    match s.allowedDepositor with
    | some allowed => pure (caller = allowed)
    | none => pure false

/-- `require_owner` (lines 187-190): panic "unauthorized: owner only"
unless the caller is the stored owner. -/
def require_owner (s : VaultState) (caller : Nat) : Except VErr Unit := do
  let meta ← get_meta s
  if caller = meta.owner then pure () else .error .ownerOnly

/-- `init` (lines 69-120).  `contractUsdc` is the USDC balance the token
contract reports for the vault's own address (line 85). -/
def init (auth : Nat → Bool) (s : VaultState) (owner usdc_token : Nat)
    (initial_balance min_deposit : Option Int)
    (revenue_pool : Option Nat) (max_deduct : Option Int)
    (contractUsdc : Int) :
    Except VErr (VaultState × List Effect × VaultMeta) := do
  let _ ← requireAuth auth owner
  if s.meta.isSome then
    .error .alreadyInit
  else
    let bal := initial_balance.getD 0
    if bal > 0 ∧ contractUsdc < bal then
      .error .insufficientContractUsdc
    else
      -- `min_deposit_val` (line 90) is computed but never stored.
      let _minDepositVal := min_deposit.getD 0
      let maxDeductVal := max_deduct.getD DEFAULT_MAX_DEDUCT
      if maxDeductVal ≤ 0 then
        .error .maxDeductNotPositive
      else
        let meta : VaultMeta := ⟨owner, bal⟩
        let s' : VaultState :=
          { meta := some meta
            usdc := some usdc_token
            admin := some owner
            revenuePool := some revenue_pool
            maxDeduct := some maxDeductVal
            allowedDepositor := s.allowedDepositor }
        .ok (s', [Effect.storeMeta meta, Effect.storeMeta meta,
                  Effect.eventInit owner bal], meta)

/-- `set_allowed_depositor` (lines 202-218): owner-only; `Some` stores
the address, `None` removes the key. -/
def set_allowed_depositor (auth : Nat → Bool) (s : VaultState)
    (caller : Nat) (depositor : Option Nat) :
    Except VErr (VaultState × List Effect) := do
  let _ ← requireAuth auth caller
  let _ ← require_owner s caller
  .ok ({ s with allowedDepositor := depositor }, [])

/-- `deposit` (lines 221-233): authorization check, then an unconditional
`meta.balance += amount` — the amount itself is not validated. -/
def deposit (auth : Nat → Bool) (s : VaultState) (caller : Nat)
    (amount : Int) : Except VErr (VaultState × List Effect × Int) := do
  let _ ← requireAuth auth caller
  let ok ← is_authorized_depositor s caller
  if ok then
    let meta ← get_meta s
    let meta' : VaultMeta := ⟨meta.owner, meta.balance + amount⟩
    .ok ({ s with meta := some meta' }, [Effect.storeMeta meta'], meta'.balance)
  else
    .error .unauthorizedDeposit

/-- `deduct` (lines 283-323): positivity, cap and balance checks, then
the debit is stored first and the transfer to the revenue pool (if any)
is requested after it. -/
def deduct (auth : Nat → Bool) (s : VaultState) (caller : Nat)
    (amount : Int) (request_id : Option Nat) :
    Except VErr (VaultState × List Effect × Int) := do
  let _ ← requireAuth auth caller
  let maxDeduct ← get_max_deduct s
  if amount ≤ 0 then
    .error .amountNotPositive
  else if maxDeduct < amount then
    .error .exceedsMaxDeduct
  else do
    let meta ← get_meta s
    if meta.balance < amount then
      .error .insufficientBalance
    else do
      let _usdc ← get_usdc s
      let revPool := get_revenue_pool s
      let meta' : VaultMeta := ⟨meta.owner, meta.balance - amount⟩
      let transferEffs : List Effect :=
        match revPool with
        | some dst => [Effect.transfer dst amount]
        | none => []
      .ok ({ s with meta := some meta' },
           [Effect.storeMeta meta'] ++ transferEffs ++
             [.eventDeduct request_id amount meta'.balance],
           meta'.balance)

/-- The validation pass of `batch_deduct` (lines 336-347): walk the items
in order with a running projected balance and a running total, failing on
the first non-positive amount, amount above the cap, or amount above the
projected balance. -/
def validateItems (maxDeduct : Int) :
    Int → Int → List DeductItem → Except VErr (Int × Int)
  | running, total, [] => .ok (running, total)
  | running, total, item :: rest =>
    if item.amount ≤ 0 then .error .amountNotPositive
    else if maxDeduct < item.amount then .error .exceedsMaxDeduct
    else if running < item.amount then .error .insufficientBalance
    else validateItems maxDeduct (running - item.amount)
      (total + item.amount) rest

/-- The event pass of `batch_deduct` (lines 360-372): emit one deduct
event per item, in order, carrying the running balance after that item;
returns the events together with the final balance. -/
def emitDeductEvents : Int → List DeductItem → List Effect × Int
  | bal, [] => ([], bal)
  | bal, item :: rest =>
    (Effect.eventDeduct item.request_id item.amount (bal - item.amount) ::
        (emitDeductEvents (bal - item.amount) rest).1,
     (emitDeductEvents (bal - item.amount) rest).2)

/-- `batch_deduct` (lines 329-387): validate all items against a running
projected balance, then emit the per-item events, store the final balance
once, and transfer the total to the revenue pool (if one is set and the
total is positive). -/
def batch_deduct (auth : Nat → Bool) (s : VaultState) (caller : Nat)
    (items : List DeductItem) :
    Except VErr (VaultState × List Effect × Int) := do
  let _ ← requireAuth auth caller
  let maxDeduct ← get_max_deduct s
  let meta ← get_meta s
  if items.length = 0 then
    .error .emptyBatch
  else do
    let vt ← validateItems maxDeduct meta.balance 0 items
    let total := vt.2
    let _usdc ← get_usdc s
    let revPool := get_revenue_pool s
    let evs := (emitDeductEvents meta.balance items).1
    let finalBal := (emitDeductEvents meta.balance items).2
    let meta' : VaultMeta := ⟨meta.owner, finalBal⟩
    let transferEffs : List Effect :=
      if total > 0 then
        match revPool with
        | some dst => [Effect.transfer dst total]
        | none => []
      else []
    .ok ({ s with meta := some meta' },
         evs ++ [Effect.storeMeta meta'] ++ transferEffs, meta'.balance)

/-- `withdraw` (lines 390-414): owner auth and amount checks, then the
transfer to the owner is requested (line 402) before the debited meta
record is stored (lines 404-407). -/
def withdraw (auth : Nat → Bool) (s : VaultState) (amount : Int) :
    Except VErr (VaultState × List Effect × Int) := do
  let meta ← get_meta s
  let _ ← requireAuth auth meta.owner
  if amount ≤ 0 then
    .error .amountNotPositive
  else if meta.balance < amount then
    .error .insufficientBalance
  else do
    let _usdc ← get_usdc s
    let meta' : VaultMeta := ⟨meta.owner, meta.balance - amount⟩
    .ok ({ s with meta := some meta' },
         [Effect.transfer meta.owner amount, Effect.storeMeta meta',
          Effect.eventWithdraw meta.owner amount meta'.balance],
         meta'.balance)

/-- `withdraw_to` (lines 417-444): despite the "Owner-only" doc comment
there is no `require_auth` and no positivity check; only
`meta.balance >= amount` is asserted, the transfer to `dst` is requested
(line 427) before the debited meta record is stored, and the record is
stored twice (lines 430 and 431-433). -/
def withdraw_to (s : VaultState) (dst : Nat) (amount : Int) :
    Except VErr (VaultState × List Effect × Int) := do
  let meta ← get_meta s
  if meta.balance < amount then
    .error .insufficientBalance
  else do
    let _usdc ← get_usdc s
    let meta' : VaultMeta := ⟨meta.owner, meta.balance - amount⟩
    .ok ({ s with meta := some meta' },
         [Effect.transfer dst amount, Effect.storeMeta meta', Effect.storeMeta meta',
          Effect.eventWithdrawTo meta.owner dst amount meta'.balance],
         meta'.balance)

/-- The public operation surface of the contract, one constructor per
exported function modelled above (arguments as in the source). -/
inductive Op where
  | opInit (owner usdc_token : Nat) (initial_balance min_deposit : Option Int)
      (revenue_pool : Option Nat) (max_deduct : Option Int) (contractUsdc : Int)
  | opSetAllowedDepositor (caller : Nat) (depositor : Option Nat)
  | opDeposit (caller : Nat) (amount : Int)
  | opDeduct (caller : Nat) (amount : Int) (request_id : Option Nat)
  | opBatchDeduct (caller : Nat) (items : List DeductItem)
  | opWithdraw (amount : Int)
  | opWithdrawTo (dst : Nat) (amount : Int)
  | opGetMaxDeduct
  | opGetRevenuePool
  | opGetMeta
  | opBalance
deriving DecidableEq

/-- Run one public operation, keeping the post-state and the effect trace
and discarding the return value.  Read-only accessors leave the state
unchanged and have no effects. -/
def step (auth : Nat → Bool) (op : Op) (s : VaultState) :
    Except VErr (VaultState × List Effect) :=
  match op with
  | .opInit owner tok ib md rp mx cu =>
    (init auth s owner tok ib md rp mx cu).map fun r => (r.1, r.2.1)
  | .opSetAllowedDepositor caller dep =>
    set_allowed_depositor auth s caller dep
  | .opDeposit caller amount =>
    (deposit auth s caller amount).map fun r => (r.1, r.2.1)
  | .opDeduct caller amount rid =>
    (deduct auth s caller amount rid).map fun r => (r.1, r.2.1)
  | .opBatchDeduct caller items =>
    (batch_deduct auth s caller items).map fun r => (r.1, r.2.1)
  | .opWithdraw amount =>
    (withdraw auth s amount).map fun r => (r.1, r.2.1)
  | .opWithdrawTo dst amount =>
    (withdraw_to s dst amount).map fun r => (r.1, r.2.1)
  | .opGetMaxDeduct => (get_max_deduct s).map fun _ => (s, [])
  | .opGetRevenuePool => .ok (s, [])
  | .opGetMeta => (get_meta s).map fun _ => (s, [])
  | .opBalance => (balance s).map fun _ => (s, [])

/-- The storage after an operation: a Soroban panic reverts every write,
so a failing operation leaves the pre-state. -/
def finalState (s : VaultState) (r : Except VErr (VaultState × List Effect)) :
    VaultState :=
  match r with
  | .ok (s', _) => s'
  | .error _ => s

/-- Sum of the amounts of a list of deduct items. -/
def sumAmounts : List DeductItem → Int
  | [] => 0
  | item :: rest => item.amount + sumAmounts rest

/-- The effect trace of an operation result (empty when it failed). -/
def effectsOf (r : Except VErr (VaultState × List Effect × Int)) :
    List Effect :=
  match r with
  | .ok (_, effs, _) => effs
  | .error _ => []

/-- Whether an effect is a store of the meta record. -/
def Effect.isStore : Effect → Bool
  | .storeMeta _ => true
  | _ => false

/-- Whether an effect is an outbound token transfer. -/
def Effect.isTransfer : Effect → Bool
  | .transfer _ _ => true
  | _ => false

/-- A ledger debit is committed before any outbound transfer is
requested: the first `storeMeta` in the trace comes strictly before the
first `transfer` (this is the ordering the specification asserts for the
withdraw paths).  `List.findIdx` returns the length when there is no
match, so the predicate also demands that a transfer exists only after a
store. -/
def debitPrecedesTransfer (effs : List Effect) : Bool :=
  effs.findIdx Effect.isStore < effs.findIdx Effect.isTransfer

/-- Environment in which every address has authorized the call. -/
def authAll : Nat → Bool := fun _ => true

/-- Environment in which no address has authorized anything. -/
def authNone : Nat → Bool := fun _ => false

/-- A freshly deployed, never-initialized vault: every storage key absent. -/
def freshVault : VaultState :=
  { meta := none, usdc := none, admin := none, revenuePool := none
    maxDeduct := none, allowedDepositor := none }

/-- A representative initialized vault: owner 1, balance 100, USDC token
address 9, admin 1, no revenue pool, deduct cap 1000, no allowed
depositor. -/
def vault0 : VaultState :=
  { meta := some ⟨1, 100⟩, usdc := some 9, admin := some 1
    revenuePool := some none, maxDeduct := some 1000
    allowedDepositor := none }

/-- Balance-zero variant of `vault0`, used to exhibit the negative-deposit
behaviour. -/
def vaultZeroBal : VaultState := { vault0 with meta := some ⟨1, 0⟩ }

/-! Inversion lemmas: what a successful run of each operation implies
about the pre-state, the post-state and the effect trace. -/

theorem deposit_ok_inv {auth : Nat → Bool} {s : VaultState} {c : Nat} {a : Int}
    {s' : VaultState} {effs : List Effect} {r : Int}
    (h : deposit auth s c a = .ok (s', effs, r)) :
    ∃ m, s.meta = some m ∧
      s' = { s with meta := some ⟨m.owner, m.balance + a⟩ } ∧
      effs = [Effect.storeMeta ⟨m.owner, m.balance + a⟩] ∧ r = m.balance + a := by
  unfold deposit requireAuth is_authorized_depositor get_meta at h
  cases hm : s.meta with
  | none =>
    rw [hm] at h
    simp only [Bind.bind, Except.bind] at h
    split at h <;> simp at h
  | some m =>
    rw [hm] at h
    simp only [Bind.bind, Except.bind] at h
    split at h
    · exact absurd h (by simp)
    · split at h
      · exact absurd h (by simp)
      · split at h
        · refine ⟨m, rfl, ?_⟩
          simp only [Except.ok.injEq, Prod.mk.injEq] at h
          exact ⟨h.1.symm, h.2.1.symm, h.2.2.symm⟩
        · exact absurd h (by simp)

theorem withdraw_ok_inv {auth : Nat → Bool} {s : VaultState} {a : Int}
    {s' : VaultState} {effs : List Effect} {r : Int}
    (h : withdraw auth s a = .ok (s', effs, r)) :
    ∃ m u, s.meta = some m ∧ s.usdc = some u ∧ auth m.owner = true ∧
      0 < a ∧ a ≤ m.balance ∧
      s' = { s with meta := some ⟨m.owner, m.balance - a⟩ } ∧
      effs = [Effect.transfer m.owner a,
              Effect.storeMeta ⟨m.owner, m.balance - a⟩,
              Effect.eventWithdraw m.owner a (m.balance - a)] ∧
      r = m.balance - a := by
  unfold withdraw requireAuth get_meta get_usdc at h
  cases hm : s.meta with
  | none =>
    rw [hm] at h
    simp only [Bind.bind, Except.bind] at h
    simp at h
  | some m =>
    rw [hm] at h
    simp only [Bind.bind, Except.bind] at h
    split at h
    · exact absurd h (by simp)
    · rename_i hauth
      split at h
      · exact absurd h (by simp)
      · split at h
        · exact absurd h (by simp)
        · rename_i hpos hbal
          cases hu : s.usdc with
          | none => rw [hu] at h; exact absurd h (by simp)
          | some u =>
            rw [hu] at h
            simp only [Except.ok.injEq, Prod.mk.injEq] at h
            have hauth' : auth m.owner = true := by
              by_contra hc
              simp [hc] at hauth
            exact ⟨m, u, rfl, rfl, hauth', by omega, by omega,
              h.1.symm, h.2.1.symm, h.2.2.symm⟩

theorem withdraw_to_ok_inv {s : VaultState} {dst : Nat} {a : Int}
    {s' : VaultState} {effs : List Effect} {r : Int}
    (h : withdraw_to s dst a = .ok (s', effs, r)) :
    ∃ m u, s.meta = some m ∧ s.usdc = some u ∧ a ≤ m.balance ∧
      s' = { s with meta := some ⟨m.owner, m.balance - a⟩ } ∧
      effs = [Effect.transfer dst a,
              Effect.storeMeta ⟨m.owner, m.balance - a⟩,
              Effect.storeMeta ⟨m.owner, m.balance - a⟩,
              Effect.eventWithdrawTo m.owner dst a (m.balance - a)] ∧
      r = m.balance - a := by
  unfold withdraw_to get_meta get_usdc at h
  cases hm : s.meta with
  | none =>
    rw [hm] at h
    simp only [Bind.bind, Except.bind] at h
    simp at h
  | some m =>
    rw [hm] at h
    simp only [Bind.bind, Except.bind] at h
    split at h
    · exact absurd h (by simp)
    · rename_i hbal
      cases hu : s.usdc with
      | none => rw [hu] at h; exact absurd h (by simp)
      | some u =>
        rw [hu] at h
        simp only [Except.ok.injEq, Prod.mk.injEq] at h
        exact ⟨m, u, rfl, rfl, by omega, h.1.symm, h.2.1.symm, h.2.2.symm⟩

theorem set_allowed_depositor_ok_inv {auth : Nat → Bool} {s : VaultState}
    {c : Nat} {dep : Option Nat} {s' : VaultState} {effs : List Effect}
    (h : set_allowed_depositor auth s c dep = .ok (s', effs)) :
    ∃ m, s.meta = some m ∧ auth c = true ∧ c = m.owner ∧
      s' = { s with allowedDepositor := dep } ∧ effs = [] := by
  by_cases hauth : auth c = true
  · cases hm : s.meta with
    | none =>
      simp [set_allowed_depositor, requireAuth, require_owner, get_meta,
        hauth, hm, Bind.bind, Except.bind] at h
    | some m =>
      by_cases hc : c = m.owner
      · subst hc
        simp [set_allowed_depositor, requireAuth, require_owner, get_meta,
          hauth, hm, Bind.bind, Except.bind, pure, Except.pure] at h
        exact ⟨m, rfl, hauth, rfl, h.1.symm, h.2⟩
      · simp [set_allowed_depositor, requireAuth, require_owner, get_meta,
          hauth, hm, hc, Bind.bind, Except.bind] at h
  · simp [set_allowed_depositor, requireAuth, hauth, Bind.bind,
      Except.bind] at h

theorem deduct_ok_inv {auth : Nat → Bool} {s : VaultState} {c : Nat}
    {a : Int} {rid : Option Nat} {s' : VaultState} {effs : List Effect}
    {r : Int} (h : deduct auth s c a rid = .ok (s', effs, r)) :
    ∃ m, s.meta = some m ∧ 0 < a ∧ a ≤ m.balance ∧
      s' = { s with meta := some ⟨m.owner, m.balance - a⟩ } ∧
      r = m.balance - a := by
  by_cases hauth : auth c = true
  · cases hmx : s.maxDeduct with
    | none =>
      simp [deduct, requireAuth, get_max_deduct, hauth, hmx, Bind.bind,
        Except.bind] at h
    | some maxD =>
      by_cases hpos : a ≤ 0
      · simp [deduct, requireAuth, get_max_deduct, hauth, hmx, hpos,
          Bind.bind, Except.bind] at h
      · by_cases hcap : maxD < a
        · simp [deduct, requireAuth, get_max_deduct, hauth, hmx, hpos,
            hcap, Bind.bind, Except.bind] at h
        · cases hm : s.meta with
          | none =>
            simp [deduct, requireAuth, get_max_deduct, get_meta, hauth,
              hmx, hpos, hcap, hm, Bind.bind, Except.bind] at h
          | some m =>
            by_cases hbal : m.balance < a
            · simp [deduct, requireAuth, get_max_deduct, get_meta, hauth,
                hmx, hpos, hcap, hm, hbal, Bind.bind, Except.bind] at h
            · cases hu : s.usdc with
              | none =>
                simp [deduct, requireAuth, get_max_deduct, get_meta,
                  get_usdc, hauth, hmx, hpos, hcap, hm, hbal, hu,
                  Bind.bind, Except.bind] at h
              | some u =>
                simp [deduct, requireAuth, get_max_deduct, get_meta,
                  get_usdc, get_revenue_pool, hauth, hmx, hpos, hcap, hm,
                  hbal, hu, Bind.bind, Except.bind] at h
                exact ⟨m, rfl, by omega, by omega, h.1.symm, h.2.2.symm⟩
  · simp [deduct, requireAuth, hauth, Bind.bind, Except.bind] at h

theorem batch_deduct_ok_inv {auth : Nat → Bool} {s : VaultState} {c : Nat}
    {items : List DeductItem} {s' : VaultState} {effs : List Effect}
    {r : Int} (h : batch_deduct auth s c items = .ok (s', effs, r)) :
    ∃ m, s.meta = some m ∧
      s' = { s with
              meta := some ⟨m.owner, (emitDeductEvents m.balance items).2⟩ } := by
  by_cases hauth : auth c = true
  · cases hmx : s.maxDeduct with
    | none =>
      simp [batch_deduct, requireAuth, get_max_deduct, hauth, hmx,
        Bind.bind, Except.bind] at h
    | some maxD =>
      cases hm : s.meta with
      | none =>
        simp [batch_deduct, requireAuth, get_max_deduct, get_meta, hauth,
          hmx, hm, Bind.bind, Except.bind] at h
      | some m =>
        by_cases hn : items.length = 0
        · simp [batch_deduct, requireAuth, get_max_deduct, get_meta,
            hauth, hmx, hm, hn, Bind.bind, Except.bind] at h
        · cases hv : validateItems maxD m.balance 0 items with
          | error e =>
            simp [batch_deduct, requireAuth, get_max_deduct, get_meta,
              hauth, hmx, hm, hn, hv, Bind.bind, Except.bind] at h
          | ok vt =>
            cases hu : s.usdc with
            | none =>
              simp [batch_deduct, requireAuth, get_max_deduct, get_meta,
                get_usdc, hauth, hmx, hm, hn, hv, hu, Bind.bind,
                Except.bind] at h
            | some u =>
              simp [batch_deduct, requireAuth, get_max_deduct, get_meta,
                get_usdc, hauth, hmx, hm, hn, hv, hu, Bind.bind,
                Except.bind] at h
              exact ⟨m, rfl, h.1.symm⟩
  · simp [batch_deduct, requireAuth, hauth, Bind.bind, Except.bind] at h

theorem init_ok_inv {auth : Nat → Bool} {s : VaultState}
    {owner tok : Nat} {ib md : Option Int} {rp : Option Nat}
    {mx : Option Int} {cu : Int} {s' : VaultState} {effs : List Effect}
    {meta : VaultMeta}
    (h : init auth s owner tok ib md rp mx cu = .ok (s', effs, meta)) :
    s.meta = none ∧ meta = ⟨owner, ib.getD 0⟩ ∧
      s' = { meta := some ⟨owner, ib.getD 0⟩, usdc := some tok
             admin := some owner, revenuePool := some rp
             maxDeduct := some (mx.getD DEFAULT_MAX_DEDUCT)
             allowedDepositor := s.allowedDepositor } := by
  unfold init requireAuth at h
  simp only [Bind.bind, Except.bind] at h
  split at h
  · exact absurd h (by simp)
  · split at h
    · exact absurd h (by simp)
    · rename_i hsome
      split at h
      · exact absurd h (by simp)
      · split at h
        · exact absurd h (by simp)
        · simp only [Except.ok.injEq, Prod.mk.injEq] at h
          refine ⟨?_, h.2.2.symm, h.1.symm⟩
          cases hmeta : s.meta with
          | none => rfl
          | some m => rw [hmeta] at hsome; simp at hsome

/-! Arithmetic lemmas about the two passes of `batch_deduct`. -/

theorem validateItems_ok_eq {maxD running total : Int}
    {items : List DeductItem} {out : Int × Int}
    (h : validateItems maxD running total items = .ok out) :
    out.1 = running - sumAmounts items ∧
      out.2 = total + sumAmounts items := by
  induction items generalizing running total with
  | nil =>
    simp [validateItems] at h
    simp [sumAmounts, ← h]
  | cons it rest ih =>
    unfold validateItems at h
    split at h
    · simp at h
    · split at h
      · simp at h
      · split at h
        · simp at h
        · obtain ⟨h1, h2⟩ := ih h
          refine ⟨?_, ?_⟩ <;> simp [sumAmounts] <;> omega

theorem emitDeductEvents_snd (b : Int) (items : List DeductItem) :
    (emitDeductEvents b items).2 = b - sumAmounts items := by
  induction items generalizing b with
  | nil => simp [emitDeductEvents, sumAmounts]
  | cons it rest ih =>
    simp [emitDeductEvents, sumAmounts, ih]
    omega

theorem emitDeductEvents_length (b : Int) (items : List DeductItem) :
    (emitDeductEvents b items).1.length = items.length := by
  induction items generalizing b with
  | nil => simp [emitDeductEvents]
  | cons it rest ih => simp [emitDeductEvents, ih]

theorem emitDeductEvents_get (b : Int) (items : List DeductItem)
    (i : Nat) (item : DeductItem) (h : items[i]? = some item) :
    (emitDeductEvents b items).1[i]? =
      some (Effect.eventDeduct item.request_id item.amount
        (b - sumAmounts (items.take (i + 1)))) := by
  induction items generalizing b i with
  | nil => simp at h
  | cons it rest ih =>
    cases i with
    | zero =>
      simp at h
      subst h
      simp [emitDeductEvents, sumAmounts]
    | succ n =>
      simp at h
      have := ih (b - it.amount) n h
      simp [emitDeductEvents, sumAmounts, this, sub_add_eq_sub_sub]

/-! Claim theorems. -/

/-- Claim C1: the specification says withdraw and withdraw_to are
permitted only for the vault owner, any other call being denied with no
state change.  The code contradicts this (and the function's own
"Owner-only" doc comment): `withdraw_to` performs no authorization check
at all, so in an environment where no address has authorized anything it
still succeeds, debits the vault and requests a transfer to an arbitrary
destination. -/
theorem withdraw_to_succeeds_without_authorization :
    step authNone (Op.opWithdrawTo 2 50) vault0 =
      .ok ({ vault0 with meta := some ⟨1, 50⟩ },
           [Effect.transfer 2 50, Effect.storeMeta ⟨1, 50⟩,
            Effect.storeMeta ⟨1, 50⟩, Effect.eventWithdrawTo 1 2 50 50]) := by
  decide

/-- Claim C2: the specification claims `balance >= 0` after every
operation.  The code violates it: `deposit` (lines 221-233) adds the
amount with no validation, so an authorized deposit of -5 on a balance
of 0 stores a balance of -5.  The repository's own tests
(`deposit_negative_panics`) expect this call to panic with
"amount must be positive". -/
theorem deposit_negative_breaks_nonnegativity :
    deposit authAll vaultZeroBal 1 (-5) =
      .ok ({ vaultZeroBal with meta := some ⟨1, -5⟩ },
           [Effect.storeMeta ⟨1, -5⟩], -5) := by
  decide

/-- Claim C3: the specification claims a deposit with amount <= 0 is
rejected (AmountNotPositive), one below min_deposit is rejected
(BelowMinimum) and an overflowing credit is rejected (Overflow).  The
deposit the contract exposes (lines 221-233) has none of these checks:
an authorized deposit of amount 0 succeeds and returns the unchanged
balance, while the repository's own test `deposit_zero_panics` expects
the panic "amount must be positive". -/
theorem deposit_accepts_zero_amount :
    deposit authAll vault0 1 0 =
      .ok ({ vault0 with meta := some ⟨1, 100⟩ },
           [Effect.storeMeta ⟨1, 100⟩], 100) := by
  decide

/-- Claim C4 (counterexample): in a successful `withdraw` the ledger
debit is NOT applied first: the effect trace of `withdraw(30)` on a
vault with balance 100 requests the token transfer before storing the
debited record, so the debit-precedes-transfer ordering asserted by the
claim is false at this input. -/
theorem withdraw_trace_debit_not_first :
    effectsOf (withdraw authAll vault0 30) =
      [Effect.transfer 1 30, Effect.storeMeta ⟨1, 70⟩,
       Effect.eventWithdraw 1 30 70] ∧
      debitPrecedesTransfer (effectsOf (withdraw authAll vault0 30)) = false := by
  decide

/-- Claim C6 (counterexample): the claim says both withdraw paths reject
every amount <= 0 with no state change, but `withdraw_to` has no
positivity check: withdrawing -5 succeeds and INCREASES the stored
balance from 100 to 105. -/
theorem withdraw_to_accepts_nonpositive_amount :
    withdraw_to vault0 2 (-5) =
      .ok ({ vault0 with meta := some ⟨1, 105⟩ },
           [Effect.transfer 2 (-5), Effect.storeMeta ⟨1, 105⟩,
            Effect.storeMeta ⟨1, 105⟩, Effect.eventWithdrawTo 1 2 (-5) 105],
           105) := by
  decide

/-- Claim C8 (counterexample): the claim says every operation other than
init fails with a not-initialized error before initialization, but
`get_revenue_pool` reads its key with a `None` default instead of a
panic, so on a fresh vault it succeeds and returns no revenue pool. -/
theorem get_revenue_pool_ok_uninitialized :
    step authAll Op.opGetRevenuePool freshVault = .ok (freshVault, []) ∧
      get_revenue_pool freshVault = none := by
  decide

/-- Claim C6 (amended): `withdraw` rejects every amount <= 0 with no
state change; `withdraw_to` performs no positivity (or authorization)
check and rejects only amounts exceeding the balance; for
0 < amount <= balance both paths decrement the stored balance by exactly
the amount and request a transfer of that amount to the destination (the
owner for withdraw, the given address for withdraw_to). -/
theorem withdraw_amount_checks :
    (∀ (auth : Nat → Bool) (s : VaultState) (a : Int), a ≤ 0 →
        ∃ e, withdraw auth s a = .error e) ∧
    (∀ (auth : Nat → Bool) (s : VaultState) (a : Int) (m : VaultMeta)
        (u : Nat), s.meta = some m → s.usdc = some u →
        auth m.owner = true → 0 < a → a ≤ m.balance →
        withdraw auth s a =
          .ok ({ s with meta := some ⟨m.owner, m.balance - a⟩ },
               [Effect.transfer m.owner a,
                Effect.storeMeta ⟨m.owner, m.balance - a⟩,
                Effect.eventWithdraw m.owner a (m.balance - a)],
               m.balance - a)) ∧
    (∀ (s : VaultState) (dst : Nat) (a : Int) (m : VaultMeta),
        s.meta = some m → m.balance < a →
        withdraw_to s dst a = .error .insufficientBalance) ∧
    (∀ (s : VaultState) (dst : Nat) (a : Int) (m : VaultMeta) (u : Nat),
        s.meta = some m → s.usdc = some u → a ≤ m.balance →
        withdraw_to s dst a =
          .ok ({ s with meta := some ⟨m.owner, m.balance - a⟩ },
               [Effect.transfer dst a,
                Effect.storeMeta ⟨m.owner, m.balance - a⟩,
                Effect.storeMeta ⟨m.owner, m.balance - a⟩,
                Effect.eventWithdrawTo m.owner dst a (m.balance - a)],
               m.balance - a)) := by
  refine ⟨?_, ?_, ?_, ?_⟩
  · intro auth s a ha
    cases hm : s.meta with
    | none =>
      exact ⟨.notInit, by
        simp [withdraw, get_meta, hm, Bind.bind, Except.bind]⟩
    | some m =>
      by_cases hauth : auth m.owner = true
      · exact ⟨.amountNotPositive, by
          simp [withdraw, get_meta, requireAuth, hm, hauth, ha,
            Bind.bind, Except.bind]⟩
      · exact ⟨.notAuth m.owner, by
          simp [withdraw, get_meta, requireAuth, hm, hauth,
            Bind.bind, Except.bind]⟩
  · intro auth s a m u hm hu hauth hpos hbal
    simp [withdraw, get_meta, get_usdc, requireAuth, hm, hu, hauth,
      show ¬a ≤ 0 from by omega, show ¬m.balance < a from by omega,
      Bind.bind, Except.bind]
  · intro s dst a m hm hbal
    simp [withdraw_to, get_meta, hm, hbal, Bind.bind, Except.bind]
  · intro s dst a m u hm hu hbal
    simp [withdraw_to, get_meta, get_usdc, hm, hu,
      show ¬m.balance < a from by omega, Bind.bind, Except.bind]

/-- Claim C6 witness: withdraw(30) by the authorized owner on balance 100
debits to 70 and requests a transfer of 30 to the owner. -/
theorem withdraw_amount_checks_witness :
    withdraw authAll vault0 30 =
      .ok ({ vault0 with meta := some ⟨1, 70⟩ },
           [Effect.transfer 1 30, Effect.storeMeta ⟨1, 70⟩,
            Effect.eventWithdraw 1 30 70], 70) :=
  withdraw_amount_checks.2.1 authAll vault0 30 ⟨1, 100⟩ 9 rfl rfl rfl
    (by decide) (by decide)

/-- Claim C7: on an initialized vault with an authenticated caller,
`deduct` rejects amount <= 0 ("amount must be positive"), rejects
amounts above the cap ("deduct amount exceeds max_deduct"), rejects
amounts above the balance ("insufficient balance"), and otherwise
decrements the stored balance by exactly the amount and returns the new
balance. -/
theorem deduct_checks_and_decrement :
    (∀ (auth : Nat → Bool) (s : VaultState) (c : Nat) (a : Int)
        (rid : Option Nat) (maxD : Int), auth c = true →
        s.maxDeduct = some maxD → a ≤ 0 →
        deduct auth s c a rid = .error .amountNotPositive) ∧
    (∀ (auth : Nat → Bool) (s : VaultState) (c : Nat) (a : Int)
        (rid : Option Nat) (maxD : Int), auth c = true →
        s.maxDeduct = some maxD → 0 < a → maxD < a →
        deduct auth s c a rid = .error .exceedsMaxDeduct) ∧
    (∀ (auth : Nat → Bool) (s : VaultState) (c : Nat) (a : Int)
        (rid : Option Nat) (maxD : Int) (m : VaultMeta), auth c = true →
        s.maxDeduct = some maxD → s.meta = some m → 0 < a → a ≤ maxD →
        m.balance < a →
        deduct auth s c a rid = .error .insufficientBalance) ∧
    (∀ (auth : Nat → Bool) (s : VaultState) (c : Nat) (a : Int)
        (rid : Option Nat) (maxD : Int) (m : VaultMeta) (u : Nat),
        auth c = true → s.maxDeduct = some maxD → s.meta = some m →
        s.usdc = some u → 0 < a → a ≤ maxD → a ≤ m.balance →
        ∃ effs, deduct auth s c a rid =
          .ok ({ s with meta := some ⟨m.owner, m.balance - a⟩ }, effs,
               m.balance - a)) := by
  refine ⟨?_, ?_, ?_, ?_⟩
  · intro auth s c a rid maxD hauth hmx ha
    simp [deduct, requireAuth, get_max_deduct, hauth, hmx, ha,
      Bind.bind, Except.bind]
  · intro auth s c a rid maxD hauth hmx hpos hcap
    simp [deduct, requireAuth, get_max_deduct, hauth, hmx, hcap,
      show ¬a ≤ 0 from by omega, Bind.bind, Except.bind]
  · intro auth s c a rid maxD m hauth hmx hm hpos hcap hbal
    simp [deduct, requireAuth, get_max_deduct, get_meta, hauth, hmx, hm,
      hbal, show ¬a ≤ 0 from by omega, show ¬maxD < a from by omega,
      Bind.bind, Except.bind]
  · intro auth s c a rid maxD m u hauth hmx hm hu hpos hcap hbal
    refine ⟨?_, ?_⟩
    · exact [Effect.storeMeta ⟨m.owner, m.balance - a⟩] ++
        (match get_revenue_pool s with
         | some dst => [Effect.transfer dst a]
         | none => []) ++
        [Effect.eventDeduct rid a (m.balance - a)]
    · simp [deduct, requireAuth, get_max_deduct, get_meta, get_usdc,
        hauth, hmx, hm, hu, show ¬a ≤ 0 from by omega,
        show ¬maxD < a from by omega, show ¬m.balance < a from by omega,
        Bind.bind, Except.bind]

/-- Claim C7 witness: deduct(40) with cap 1000 on balance 100 succeeds,
stores balance 60 and returns 60. -/
theorem deduct_checks_and_decrement_witness :
    ∃ effs, deduct authAll vault0 5 40 (some 3) =
      .ok ({ vault0 with meta := some ⟨1, 60⟩ }, effs, 60) :=
  deduct_checks_and_decrement.2.2.2 authAll vault0 5 40 (some 3) 1000
    ⟨1, 100⟩ 9 rfl rfl rfl rfl (by decide) (by decide) (by decide)

/-- Claim C9: `set_allowed_depositor` is owner-only (an authenticated
non-owner caller is rejected with "unauthorized: owner only"), the owner
setting it stores the new value, and after the owner clears it with
`None` a previously allowed non-owner depositor's deposit is rejected
with "unauthorized: only owner or allowed depositor can deposit". -/
theorem set_allowed_depositor_owner_only_and_revocation :
    (∀ (auth : Nat → Bool) (s : VaultState) (c : Nat) (dep : Option Nat)
        (m : VaultMeta), auth c = true → s.meta = some m → c ≠ m.owner →
        set_allowed_depositor auth s c dep = .error .ownerOnly) ∧
    (∀ (auth : Nat → Bool) (s : VaultState) (dep : Option Nat)
        (m : VaultMeta), s.meta = some m → auth m.owner = true →
        set_allowed_depositor auth s m.owner dep =
          .ok ({ s with allowedDepositor := dep }, [])) ∧
    (∀ (auth : Nat → Bool) (s s' : VaultState) (d : Nat) (a : Int)
        (m : VaultMeta), s.meta = some m → auth m.owner = true →
        set_allowed_depositor auth s m.owner none = .ok (s', []) →
        auth d = true → d ≠ m.owner →
        deposit auth s' d a = .error .unauthorizedDeposit) := by
  refine ⟨?_, ?_, ?_⟩
  · intro auth s c dep m hauth hm hc
    simp [set_allowed_depositor, requireAuth, require_owner, get_meta,
      hauth, hm, hc, Bind.bind, Except.bind]
  · intro auth s dep m hm hauth
    simp [set_allowed_depositor, requireAuth, require_owner, get_meta,
      hauth, hm, Bind.bind, Except.bind, pure, Except.pure]
  · intro auth s s' d a m hm hauth hset hd hne
    obtain ⟨m2, hm2, _, _, hs', _⟩ := set_allowed_depositor_ok_inv hset
    subst hs'
    simp [deposit, requireAuth, is_authorized_depositor, get_meta, hd,
      hne, hm, Bind.bind, Except.bind, pure, Except.pure]

/-- Claim C9 witness: with owner 1 and allowed depositor 4, after the
owner clears the depositor, a deposit by address 4 is rejected. -/
theorem set_allowed_depositor_revocation_witness :
    deposit authAll { vault0 with allowedDepositor := none } 4 25 =
      .error .unauthorizedDeposit :=
  set_allowed_depositor_owner_only_and_revocation.2.2 authAll
    { vault0 with allowedDepositor := some 4 }
    { vault0 with allowedDepositor := none } 4 25 ⟨1, 100⟩ rfl rfl
    (by decide) rfl (by decide)

/-- Whether an operation is the `init` call. -/
def Op.isInit : Op → Bool
  | .opInit .. => true
  | _ => false

/-- Whether an operation is the `get_revenue_pool` accessor. -/
def Op.isGetRevenuePool : Op → Bool
  | .opGetRevenuePool => true
  | _ => false

/-- Claim C8 (amended): before initialization (no meta record and no
max_deduct key), every operation other than init fails with the
"vault not initialized" error and leaves the state unchanged — except
`get_revenue_pool`, whose storage read defaults to `None` instead of
panicking, so it succeeds (see the counterexample theorem). -/
theorem uninitialized_ops_fail_notInit :
    ∀ (op : Op) (s : VaultState), s.meta = none → s.maxDeduct = none →
      op.isInit = false → op.isGetRevenuePool = false →
      step authAll op s = .error .notInit ∧
        finalState s (step authAll op s) = s := by
  intro op s hm hmx hni hnr
  cases op <;>
    simp_all [step, init, set_allowed_depositor, deposit, deduct,
      batch_deduct, withdraw, withdraw_to, get_meta, get_max_deduct,
      get_usdc, get_revenue_pool, balance, requireAuth, require_owner,
      is_authorized_depositor, authAll, finalState, Op.isInit,
      Op.isGetRevenuePool, Bind.bind, Except.bind, Except.map]

/-- Claim C8 witness: reading the meta record on a fresh vault fails
with the not-initialized error and changes nothing. -/
theorem uninitialized_ops_fail_notInit_witness :
    step authAll Op.opGetMeta freshVault = .error .notInit ∧
      finalState freshVault (step authAll Op.opGetMeta freshVault) =
        freshVault :=
  uninitialized_ops_fail_notInit Op.opGetMeta freshVault rfl rfl rfl rfl

/-- Claim C4 (amended): in every successful `withdraw` or `withdraw_to`
call the outbound transfer of the amount to the destination is requested
first, and the ledger debit of the same amount is committed only after
that transfer request (the debit-first ordering claimed by the
specification never holds). -/
theorem withdraw_paths_transfer_precedes_debit :
    (∀ (auth : Nat → Bool) (s : VaultState) (a : Int) (s' : VaultState)
        (effs : List Effect) (r : Int),
        withdraw auth s a = .ok (s', effs, r) →
        ∃ m, s.meta = some m ∧
          effs = [Effect.transfer m.owner a,
                  Effect.storeMeta ⟨m.owner, m.balance - a⟩,
                  Effect.eventWithdraw m.owner a (m.balance - a)] ∧
          s' = { s with meta := some ⟨m.owner, m.balance - a⟩ } ∧
          debitPrecedesTransfer effs = false) ∧
    (∀ (s : VaultState) (dst : Nat) (a : Int) (s' : VaultState)
        (effs : List Effect) (r : Int),
        withdraw_to s dst a = .ok (s', effs, r) →
        ∃ m, s.meta = some m ∧
          effs = [Effect.transfer dst a,
                  Effect.storeMeta ⟨m.owner, m.balance - a⟩,
                  Effect.storeMeta ⟨m.owner, m.balance - a⟩,
                  Effect.eventWithdrawTo m.owner dst a (m.balance - a)] ∧
          s' = { s with meta := some ⟨m.owner, m.balance - a⟩ } ∧
          debitPrecedesTransfer effs = false) := by
  constructor
  · intro auth s a s' effs r h
    obtain ⟨m, u, hm, hu, hauth, hpos, hbal, hs', heffs, hr⟩ :=
      withdraw_ok_inv h
    subst heffs
    exact ⟨m, hm, rfl, hs', by
      simp [debitPrecedesTransfer, Effect.isStore, Effect.isTransfer,
        List.findIdx, List.findIdx.go]⟩
  · intro s dst a s' effs r h
    obtain ⟨m, u, hm, hu, hbal, hs', heffs, hr⟩ := withdraw_to_ok_inv h
    subst heffs
    exact ⟨m, hm, rfl, hs', by
      simp [debitPrecedesTransfer, Effect.isStore, Effect.isTransfer,
        List.findIdx, List.findIdx.go]⟩

/-- Claim C4 witness: the successful withdraw(30) on balance 100 has the
transfer-first trace. -/
theorem withdraw_paths_transfer_precedes_debit_witness :
    ∃ m, vault0.meta = some m ∧
      ([Effect.transfer 1 30, Effect.storeMeta ⟨1, 70⟩,
        Effect.eventWithdraw 1 30 70] : List Effect) =
        [Effect.transfer m.owner 30,
         Effect.storeMeta ⟨m.owner, m.balance - 30⟩,
         Effect.eventWithdraw m.owner 30 (m.balance - 30)] ∧
      ({ vault0 with meta := some ⟨1, 70⟩ } : VaultState) =
        { vault0 with meta := some ⟨m.owner, m.balance - 30⟩ } ∧
      debitPrecedesTransfer
        [Effect.transfer 1 30, Effect.storeMeta ⟨1, 70⟩,
         Effect.eventWithdraw 1 30 70] = false :=
  withdraw_paths_transfer_precedes_debit.1 authAll vault0 30
    { vault0 with meta := some ⟨1, 70⟩ }
    [Effect.transfer 1 30, Effect.storeMeta ⟨1, 70⟩,
     Effect.eventWithdraw 1 30 70] 70 (by decide)

/-- Claim C10: after a successful init the stored owner and the stored
admin (initialized to the owner) are never changed: init on an
initialized vault fails, and every operation that succeeds on an
initialized vault preserves the owner field of the meta record and the
admin key. -/
theorem owner_admin_never_change :
    (∀ (auth : Nat → Bool) (op : Op) (s s' : VaultState)
        (effs : List Effect) (m : VaultMeta), s.meta = some m →
        step auth op s = .ok (s', effs) →
        (∃ b, s'.meta = some ⟨m.owner, b⟩) ∧ s'.admin = s.admin) ∧
    (∀ (auth : Nat → Bool) (s : VaultState) (owner tok : Nat)
        (ib md : Option Int) (rp : Option Nat) (mx : Option Int)
        (cu : Int) (s' : VaultState) (effs : List Effect)
        (meta : VaultMeta),
        init auth s owner tok ib md rp mx cu = .ok (s', effs, meta) →
        s'.admin = some owner ∧ s'.meta = some ⟨owner, meta.balance⟩) := by
  constructor
  · intro auth op s s' effs m hm h
    cases op with
    | opInit o tk ib md rp mx cu =>
      simp only [step] at h
      cases hr : init auth s o tk ib md rp mx cu with
      | error e => rw [hr] at h; simp [Except.map] at h
      | ok t =>
        have := init_ok_inv hr
        simp [this.1] at hm
    | opSetAllowedDepositor c dep =>
      simp only [step] at h
      obtain ⟨m2, hm2, _, _, hs', _⟩ := set_allowed_depositor_ok_inv h
      rw [hm] at hm2
      cases hm2
      subst hs'
      exact ⟨⟨m.balance, by simp [hm]⟩, rfl⟩
    | opDeposit c a =>
      simp only [step] at h
      cases hr : deposit auth s c a with
      | error e => rw [hr] at h; simp [Except.map] at h
      | ok t =>
        rw [hr] at h
        simp only [Except.map, Except.ok.injEq, Prod.mk.injEq] at h
        obtain ⟨m2, hm2, hs', _, _⟩ := deposit_ok_inv hr
        rw [hm] at hm2
        cases hm2
        rw [← h.1, hs']
        exact ⟨⟨m.balance + a, rfl⟩, rfl⟩
    | opDeduct c a rid =>
      simp only [step] at h
      cases hr : deduct auth s c a rid with
      | error e => rw [hr] at h; simp [Except.map] at h
      | ok t =>
        rw [hr] at h
        simp only [Except.map, Except.ok.injEq, Prod.mk.injEq] at h
        obtain ⟨m2, hm2, _, _, hs', _⟩ := deduct_ok_inv hr
        rw [hm] at hm2
        cases hm2
        rw [← h.1, hs']
        exact ⟨⟨m.balance - a, rfl⟩, rfl⟩
    | opBatchDeduct c items =>
      simp only [step] at h
      cases hr : batch_deduct auth s c items with
      | error e => rw [hr] at h; simp [Except.map] at h
      | ok t =>
        rw [hr] at h
        simp only [Except.map, Except.ok.injEq, Prod.mk.injEq] at h
        obtain ⟨m2, hm2, hs'⟩ := batch_deduct_ok_inv hr
        rw [hm] at hm2
        cases hm2
        rw [← h.1, hs']
        exact ⟨⟨(emitDeductEvents m.balance items).2, rfl⟩, rfl⟩
    | opWithdraw a =>
      simp only [step] at h
      cases hr : withdraw auth s a with
      | error e => rw [hr] at h; simp [Except.map] at h
      | ok t =>
        rw [hr] at h
        simp only [Except.map, Except.ok.injEq, Prod.mk.injEq] at h
        obtain ⟨m2, u, hm2, _, _, _, _, hs', _, _⟩ := withdraw_ok_inv hr
        rw [hm] at hm2
        cases hm2
        rw [← h.1, hs']
        exact ⟨⟨m.balance - a, rfl⟩, rfl⟩
    | opWithdrawTo dst a =>
      simp only [step] at h
      cases hr : withdraw_to s dst a with
      | error e => rw [hr] at h; simp [Except.map] at h
      | ok t =>
        rw [hr] at h
        simp only [Except.map, Except.ok.injEq, Prod.mk.injEq] at h
        obtain ⟨m2, u, hm2, _, _, hs', _, _⟩ := withdraw_to_ok_inv hr
        rw [hm] at hm2
        cases hm2
        rw [← h.1, hs']
        exact ⟨⟨m.balance - a, rfl⟩, rfl⟩
    | opGetMaxDeduct =>
      simp only [step] at h
      cases hmx : s.maxDeduct with
      | none => simp [get_max_deduct, hmx, Except.map] at h
      | some v =>
        simp [get_max_deduct, hmx, Except.map, Prod.mk.injEq] at h
        rw [← h.1]
        exact ⟨⟨m.balance, by rw [hm]⟩, rfl⟩
    | opGetRevenuePool =>
      simp only [step, Except.ok.injEq, Prod.mk.injEq] at h
      rw [← h.1]
      exact ⟨⟨m.balance, by rw [hm]⟩, rfl⟩
    | opGetMeta =>
      simp only [step] at h
      simp [get_meta, hm, Except.map, Prod.mk.injEq] at h
      rw [← h.1]
      exact ⟨⟨m.balance, by rw [hm]⟩, rfl⟩
    | opBalance =>
      simp only [step] at h
      simp [balance, get_meta, hm, Except.map, Prod.mk.injEq] at h
      rw [← h.1]
      exact ⟨⟨m.balance, by rw [hm]⟩, rfl⟩
  · intro auth s owner tok ib md rp mx cu s' effs meta h
    obtain ⟨_, hmeta, hs'⟩ := init_ok_inv h
    subst hs'
    subst hmeta
    exact ⟨rfl, rfl⟩

/-- Claim C10 witness: a successful deposit of 5 on the initialized
vault keeps owner 1 in the meta record and leaves the admin key
untouched. -/
theorem owner_admin_never_change_witness :
    (∃ b, ({ vault0 with meta := some ⟨1, 105⟩ } : VaultState).meta =
        some ⟨1, b⟩) ∧
      ({ vault0 with meta := some ⟨1, 105⟩ } : VaultState).admin =
        vault0.admin :=
  owner_admin_never_change.1 authAll (Op.opDeposit 1 5) vault0
    { vault0 with meta := some ⟨1, 105⟩ }
    [Effect.storeMeta ⟨1, 105⟩] ⟨1, 100⟩ rfl (by decide)

/-- Claim C5: for a non-empty batch on an initialized vault with an
authenticated caller, if any item fails the validation pass against the
running projected balance (non-positive amount, amount above the cap, or
projected balance going negative, checked in list order) the whole call
fails with that first error and the stored state is unchanged; if all
items pass, the stored balance is updated once to the initial balance
minus the sum of the amounts, that balance is returned, and one deduct
event is emitted per item in original order carrying the running balance
after that specific item's deduction. -/
theorem batch_deduct_all_or_nothing :
    ∀ (auth : Nat → Bool) (s : VaultState) (c : Nat)
      (items : List DeductItem) (maxD : Int) (m : VaultMeta) (u : Nat),
      auth c = true → s.maxDeduct = some maxD → s.meta = some m →
      s.usdc = some u → items ≠ [] →
      ((∀ e, validateItems maxD m.balance 0 items = .error e →
          batch_deduct auth s c items = .error e ∧
            finalState s (step auth (Op.opBatchDeduct c items) s) = s) ∧
       (∀ out, validateItems maxD m.balance 0 items = .ok out →
          batch_deduct auth s c items =
            .ok ({ s with
                    meta := some ⟨m.owner, m.balance - sumAmounts items⟩ },
                 (emitDeductEvents m.balance items).1 ++
                   [Effect.storeMeta
                      ⟨m.owner, m.balance - sumAmounts items⟩] ++
                   (if 0 < sumAmounts items then
                      match get_revenue_pool s with
                      | some dst => [Effect.transfer dst (sumAmounts items)]
                      | none => []
                    else []),
                 m.balance - sumAmounts items) ∧
          (∀ i item, items[i]? = some item →
            ((emitDeductEvents m.balance items).1)[i]? =
              some (Effect.eventDeduct item.request_id item.amount
                (m.balance - sumAmounts (items.take (i + 1))))))) := by
  intro auth s c items maxD m u hauth hmx hm hu hne
  constructor
  · intro e hval
    have hb : batch_deduct auth s c items = .error e := by
      simp [batch_deduct, requireAuth, get_max_deduct, get_meta, hauth,
        hmx, hm, hval, List.length_eq_zero, hne, Bind.bind, Except.bind]
    exact ⟨hb, by simp [finalState, step, hb, Except.map]⟩
  · intro out hval
    obtain ⟨h1, h2⟩ := validateItems_ok_eq hval
    refine ⟨?_, ?_⟩
    · have hsum2 : out.2 = sumAmounts items := by omega
      simp [batch_deduct, requireAuth, get_max_deduct, get_meta,
        get_usdc, hauth, hmx, hm, hu, hval, List.length_eq_zero, hne,
        Bind.bind, Except.bind, emitDeductEvents_snd, hsum2]
    · intro i item hi
      exact emitDeductEvents_get m.balance items i item hi

/-- Claim C5 witness: the batch [10, 20, 30] on balance 100 succeeds,
stores 40 once, returns 40, and emits the three events with running
balances 90, 70, 40 in order. -/
theorem batch_deduct_all_or_nothing_witness :
    batch_deduct authAll vault0 7 [⟨10, none⟩, ⟨20, some 4⟩, ⟨30, none⟩] =
      .ok ({ vault0 with meta := some ⟨1, 40⟩ },
           [Effect.eventDeduct none 10 90, Effect.eventDeduct (some 4) 20 70,
            Effect.eventDeduct none 30 40, Effect.storeMeta ⟨1, 40⟩],
           40) := by
  have h := (batch_deduct_all_or_nothing authAll vault0 7
      [⟨10, none⟩, ⟨20, some 4⟩, ⟨30, none⟩] 1000 ⟨1, 100⟩ 9 rfl rfl rfl
      rfl (by decide)).2 (40, 60) (by decide)
  exact h.1.trans (by decide)

end Callora
